import Mathlib

/-!
Verification of the SlideShare download service (Go, `main.go` plus the
conversion/fetch module) against its natural-language specification.

The Go code is shallowly embedded: every network request, image decode,
temporary-file creation and JPEG encode is represented by an explicit
outcome record (the oracle for one execution), and each Go function
becomes a pure Lean function from those outcomes to its result together
with the list of temporary files left on local storage.  Machine strings
are Lean `String`s, byte contents are abstract (`FileContent`, `List Nat`),
and Go `error` values become `Except` results carrying the same
`CustomAPIError` shape the code uses.
-/

deriving instance DecidableEq for Except

namespace SSDL

/-- Embeds the Go `CustomAPIError` struct (`main.go`): a status code and a
human-readable detail string; this is the only error shape that crosses
the pipeline boundary. -/
structure CustomAPIError where
  statusCode : Nat
  detail : String
deriving DecidableEq, Repr

/-- Embeds the Go `QualityType` enum (`main.go`): `HD` or `SD`. -/
inductive QualityType where
  | HD
  | SD
deriving DecidableEq, Repr

/-! ## Single image fetch task (`fetchImage`)

`fetchImage(ctx, client, urlStr)` issues one GET with a 20-second timeout,
checks for status 200, decodes the body via Go's `image.Decode` (GIF, PNG,
JPEG and WebP decoders are registered through the blank imports), creates a
temporary file with `os.CreateTemp("", "slide-*.jpg")`, and encodes the
decoded image into it as JPEG with `jpeg.Options{Quality: 90}`.

The oracle `FetchOutcome` records the outcome of each of those effectful
steps for one URL: whether `client.DoTimeout` returned a transport error
(timeouts included), the HTTP status code, the result of `image.Decode`
(`none` = not a decodable image, `some img` = the abstract decoded pixel
data), whether `os.CreateTemp` succeeded and the random part of the name it
chose, and whether `jpeg.Encode` succeeded. -/

structure FetchOutcome where
  transportError : Bool
  statusCode : Nat
  decoded : Option Nat
  createTempOk : Bool
  tmpRand : String
  encodeOk : Bool
deriving DecidableEq, Repr

/-- The fixed JPEG re-encode quality used by `fetchImage`
(`jpeg.Options{Quality: 90}`). -/
def jpegQuality : Nat := 90

/-- The fixed per-request timeout, in seconds, passed to
`client.DoTimeout` in `fetchImage` (`20*time.Second`). -/
def fetchTimeoutSeconds : Nat := 20

/-- Contents of a file on local storage: a JPEG re-encode of a decoded
image at a given quality, a truncated file left behind when `jpeg.Encode`
fails partway, or raw bytes (used by the archive exporter model). -/
inductive FileContent where
  | jpeg (img : Nat) (quality : Nat)
  | truncated
deriving DecidableEq, Repr

/-- The name `os.CreateTemp("", "slide-*.jpg")` gives the temporary file of
one fetch task: the `*` is replaced by a fresh random string. -/
def tmpName (o : FetchOutcome) : String :=
  "/tmp/slide-" ++ o.tmpRand ++ ".jpg"

/-- Kinds of failure a single fetch task can report, matching the error
returns of `fetchImage` in source order. -/
inductive FetchErr where
  | transport
  | badStatus (code : Nat)
  | decodeFail
  | tempFail
  | encodeFail
deriving DecidableEq, Repr

/-- The detail rendered into the aggregated fetch error
(`fmt.Sprintf("Failed to fetch images: %v", err)`); the exact text of the
wrapped error is abstracted per failure kind. -/
def fetchErrMsg : FetchErr → String
  | .transport => "error fetching image: transport failure or timeout"
  | .badStatus c => "failed to fetch image (status " ++ toString c ++ ")"
  | .decodeFail => "image: unknown format"
  | .tempFail => "temporary file creation failed"
  | .encodeFail => "jpeg encode failed"

/-- Embeds `fetchImage`: follows the source's check order (transport error,
then status code, then decode, then temp-file creation, then JPEG encode).
Returns the task's result plus the temporary files this task created on
storage, with their contents.  Note that when `jpeg.Encode` fails the
already-created temporary file stays on storage: `fetchImage` has no
removal on that path (`defer tmpFile.Close()` only closes the handle). -/
def fetchImage (o : FetchOutcome) :
    Except FetchErr String × List (String × FileContent) :=
  if o.transportError then
    (Except.error FetchErr.transport, [])
  else if o.statusCode ≠ 200 then
    (Except.error (FetchErr.badStatus o.statusCode), [])
  else
    match o.decoded with
    | none => (Except.error FetchErr.decodeFail, [])
    | some img =>
      if ¬ o.createTempOk then
        (Except.error FetchErr.tempFail, [])
      else if ¬ o.encodeOk then
        (Except.error FetchErr.encodeFail, [(tmpName o, FileContent.truncated)])
      else
        (Except.ok (tmpName o), [(tmpName o, FileContent.jpeg img jpegQuality)])

/-- Whether the task succeeds (its goroutine sets `results[i]`). -/
def taskOk (o : FetchOutcome) : Bool :=
  match (fetchImage o).1 with
  | Except.ok _ => true
  | Except.error _ => false

/-- The value the task leaves in its slot of the pre-sized `results` slice:
the temp-file path on success, the zero value `""` on failure. -/
def slotValue (o : FetchOutcome) : String :=
  match (fetchImage o).1 with
  | Except.ok p => p
  | Except.error _ => ""

/-- The value the task leaves in its slot of the `errors` slice. -/
def slotError (o : FetchOutcome) : Option FetchErr :=
  match (fetchImage o).1 with
  | Except.ok _ => none
  | Except.error e => some e

/-- Names of the temporary files one task creates on storage. -/
def taskFiles (o : FetchOutcome) : List String :=
  ((fetchImage o).2).map Prod.fst

theorem fetchImage_ok_iff (o : FetchOutcome) (p : String) :
    (fetchImage o).1 = Except.ok p ↔
      (o.transportError = false ∧ o.statusCode = 200 ∧ o.decoded.isSome ∧
        o.createTempOk = true ∧ o.encodeOk = true ∧ p = tmpName o) := by
  unfold fetchImage
  rcases o with ⟨t, s, d, c, r, e⟩
  by_cases hs : s = 200 <;>
    cases t <;> cases c <;> cases e <;> cases d <;>
      simp_all [Option.isSome, eq_comm]

theorem taskOk_iff (o : FetchOutcome) :
    taskOk o = true ↔
      (o.transportError = false ∧ o.statusCode = 200 ∧ o.decoded.isSome ∧
        o.createTempOk = true ∧ o.encodeOk = true) := by
  unfold taskOk
  constructor
  · intro h
    rcases he : (fetchImage o).1 with p | e
    · rw [he] at h; exact absurd h (by simp)
    · have := (fetchImage_ok_iff o e).1 he
      tauto
  · intro h
    have : (fetchImage o).1 = Except.ok (tmpName o) :=
      (fetchImage_ok_iff o (tmpName o)).2 ⟨h.1, h.2.1, h.2.2.1, h.2.2.2.1, h.2.2.2.2, rfl⟩
    rw [this]

/-! ## Bounded concurrent fetcher (`fetchImagesConcurrently`)

`fetchImagesConcurrently(urls, maxConcurrency)` launches one goroutine per
URL, admission-gated by a weighted semaphore; task `i` writes only slot `i`
of the pre-sized `results` and `errors` slices.  After `wg.Wait()`, the
first non-nil entry of `errors` (in index order) triggers the cleanup loop
— every non-empty entry of `results` is removed from storage — and an
aggregated 500 error is returned; otherwise `results` is returned.

Completion nondeterminism is modelled explicitly: `scatter` replays the
slot writes in an arbitrary completion order, and the theorems below show
the outcome is the same for every permutation of the indices, which is the
code's positional-slot argument.  The canonical run uses index order. -/

/-- Replay the per-task slot writes in the given completion `order`: each
step writes `f` of task `i`'s outcome into slot `i` of the accumulator
(out-of-range indices write nothing, matching the loop bound). -/
def scatter {α : Type} (os : List FetchOutcome) (f : FetchOutcome → α)
    (order : List Nat) (init : List α) : List α :=
  order.foldl (fun acc i =>
    match os[i]? with
    | some o => acc.set i (f o)
    | none => acc) init

theorem scatter_nil {α : Type} (os : List FetchOutcome) (f : FetchOutcome → α)
    (init : List α) : scatter os f [] init = init := rfl

theorem scatter_cons {α : Type} (os : List FetchOutcome) (f : FetchOutcome → α)
    (i : Nat) (rest : List Nat) (init : List α) :
    scatter os f (i :: rest) init =
      scatter os f rest
        (match os[i]? with
         | some o => init.set i (f o)
         | none => init) := rfl

theorem scatter_length {α : Type} (os : List FetchOutcome) (f : FetchOutcome → α)
    (order : List Nat) (init : List α) :
    (scatter os f order init).length = init.length := by
  induction order generalizing init with
  | nil => rfl
  | cons i rest ih =>
    rw [scatter_cons]
    cases h : os[i]? with
    | none => exact ih init
    | some o => rw [ih (init.set i (f o))]; exact List.length_set init i (f o)

theorem scatter_getElem? {α : Type} (os : List FetchOutcome) (f : FetchOutcome → α)
    (order : List Nat) (init : List α) (hlen : init.length = os.length) (j : Nat) :
    (scatter os f order init)[j]? =
      if j ∈ order ∧ j < os.length then (os[j]?).map f else init[j]? := by
  induction order generalizing init with
  | nil => simp [scatter_nil]
  | cons i rest ih =>
    rw [scatter_cons]
    cases hio : os[i]? with
    | none =>
      have hge : os.length ≤ i := by
        by_contra hlt
        rw [List.getElem?_eq_getElem (by omega)] at hio
        exact absurd hio (by simp)
      rw [ih init hlen]
      by_cases hj : j ∈ rest ∧ j < os.length
      · rw [if_pos hj, if_pos ⟨List.mem_cons_of_mem i hj.1, hj.2⟩]
      · have hj' : ¬ (j ∈ i :: rest ∧ j < os.length) := by
          intro ⟨hm, hlt⟩
          rcases List.mem_cons.1 hm with rfl | hm'
          · omega
          · exact hj ⟨hm', hlt⟩
        rw [if_neg hj, if_neg hj']
    | some o =>
      have hi : i < os.length := by
        by_contra hge
        rw [List.getElem?_eq_none (by omega)] at hio
        exact absurd hio (by simp)
      rw [ih (init.set i (f o)) (by simpa using hlen)]
      by_cases hj : j ∈ rest ∧ j < os.length
      · rw [if_pos hj, if_pos ⟨List.mem_cons_of_mem i hj.1, hj.2⟩]
      · by_cases hji : j = i
        · subst hji
          rw [if_neg hj, if_pos ⟨List.mem_cons_self j rest, hi⟩,
            List.getElem?_set_self (by omega), hio]
          simp
        · have hj' : ¬ (j ∈ i :: rest ∧ j < os.length) := by
            intro ⟨hm, hlt⟩
            rcases List.mem_cons.1 hm with rfl | hm'
            · exact hji rfl
            · exact hj ⟨hm', hlt⟩
          rw [if_neg hj, if_neg hj', List.getElem?_set_ne (by omega)]

theorem scatter_perm_eq_map {α : Type} (os : List FetchOutcome) (f : FetchOutcome → α)
    (order : List Nat) (d : α) (hperm : order.Perm (List.range os.length)) :
    scatter os f order (List.replicate os.length d) = os.map f := by
  have hmem : ∀ j, j ∈ order ↔ j < os.length := by
    intro j
    rw [hperm.mem_iff, List.mem_range]
  apply List.ext_get?
  intro j
  rw [List.get?_eq_getElem?, List.get?_eq_getElem?,
    scatter_getElem? os f order _ (by simp) j]
  by_cases hj : j < os.length
  · simp [hmem, hj]
  · rw [if_neg (by tauto), List.getElem?_eq_none (by simpa using hj),
      List.getElem?_eq_none (by simp; omega)]

/-- The `results` slice after all tasks, replayed in completion `order`. -/
def fetchResultsOrd (os : List FetchOutcome) (order : List Nat) : List String :=
  scatter os slotValue order (List.replicate os.length "")

/-- The `errors` slice after all tasks, replayed in completion `order`. -/
def fetchErrorsOrd (os : List FetchOutcome) (order : List Nat) :
    List (Option FetchErr) :=
  scatter os slotError order (List.replicate os.length none)

/-- All temporary files created on storage during the run (each task may
create one; creation order does not matter for the cleanup semantics, the
canonical index order is used). -/
def fetchCreated (os : List FetchOutcome) : List String :=
  (os.map taskFiles).flatten

/-- `os.Remove(f)`: the file named `f` disappears from storage. -/
def removeFile (s : List String) (f : String) : List String :=
  s.filter (fun g => g ≠ f)

/-- The cleanup loop: remove each named file from storage in turn. -/
def removeFiles (s : List String) (fs : List String) : List String :=
  fs.foldl removeFile s

/-- Embeds `fetchImagesConcurrently` observed under completion order
`order`: scan `errors` for the first non-nil entry; on a failure run the
cleanup loop over the non-empty `results` entries and return the
aggregated 500 error, otherwise return `results`. -/
def fetchImagesConcurrentlyOrd (os : List FetchOutcome) (order : List Nat) :
    Except CustomAPIError (List String) :=
  match (fetchErrorsOrd os order).findSome? id with
  | some e => Except.error ⟨500, "Failed to fetch images: " ++ fetchErrMsg e⟩
  | none => Except.ok (fetchResultsOrd os order)

/-- The temporary files still on storage when the call returns, under
completion order `order`: on the failure path the cleanup loop has removed
every non-empty `results` entry; on the success path the returned files
remain (owned by the caller). -/
def fetchRemainingOrd (os : List FetchOutcome) (order : List Nat) : List String :=
  match (fetchErrorsOrd os order).findSome? id with
  | some _ =>
    removeFiles (fetchCreated os)
      ((fetchResultsOrd os order).filter (fun f => f ≠ ""))
  | none => fetchCreated os

/-- Canonical run of `fetchImagesConcurrently` (index completion order). -/
def fetchImagesConcurrently (os : List FetchOutcome) :
    Except CustomAPIError (List String) :=
  fetchImagesConcurrentlyOrd os (List.range os.length)

/-- Temporary files left on storage by the canonical run. -/
def fetchRemaining (os : List FetchOutcome) : List String :=
  fetchRemainingOrd os (List.range os.length)

theorem fetchResultsOrd_perm (os : List FetchOutcome) (order : List Nat)
    (hperm : order.Perm (List.range os.length)) :
    fetchResultsOrd os order = os.map slotValue :=
  scatter_perm_eq_map os slotValue order "" hperm

theorem fetchErrorsOrd_perm (os : List FetchOutcome) (order : List Nat)
    (hperm : order.Perm (List.range os.length)) :
    fetchErrorsOrd os order = os.map slotError :=
  scatter_perm_eq_map os slotError order none hperm

theorem fetchOrd_eq_canonical (os : List FetchOutcome) (order : List Nat)
    (hperm : order.Perm (List.range os.length)) :
    fetchImagesConcurrentlyOrd os order = fetchImagesConcurrently os ∧
      fetchRemainingOrd os order = fetchRemaining os := by
  have hr : fetchResultsOrd os order = fetchResultsOrd os (List.range os.length) := by
    rw [fetchResultsOrd_perm os order hperm,
      fetchResultsOrd_perm os (List.range os.length) (List.Perm.refl _)]
  have he : fetchErrorsOrd os order = fetchErrorsOrd os (List.range os.length) := by
    rw [fetchErrorsOrd_perm os order hperm,
      fetchErrorsOrd_perm os (List.range os.length) (List.Perm.refl _)]
  constructor
  · unfold fetchImagesConcurrently fetchImagesConcurrentlyOrd
    rw [hr, he]
  · unfold fetchRemaining fetchRemainingOrd
    rw [hr, he]

/-! ### Supporting lemmas about the fetcher -/

theorem findSome?_id_eq_none {α : Type} (l : List (Option α)) :
    l.findSome? id = none ↔ ∀ x ∈ l, x = none := by
  induction l with
  | nil => simp [List.findSome?]
  | cons a rest ih =>
    cases a with
    | none => simp [List.findSome?, ih]
    | some v => simp [List.findSome?]

theorem slotError_eq_none_iff (o : FetchOutcome) :
    slotError o = none ↔ taskOk o = true := by
  unfold slotError taskOk
  cases (fetchImage o).1 <;> simp

theorem slotValue_of_ok (o : FetchOutcome) (h : taskOk o = true) :
    slotValue o = tmpName o ∧ taskFiles o = [tmpName o] := by
  unfold taskOk at h
  rcases he : (fetchImage o).1 with e | p
  · rw [he] at h; exact absurd h (by simp)
  · have hch := (fetchImage_ok_iff o p).1 he
    obtain ⟨h1, h2, h3, h4, h5, h6⟩ := hch
    obtain ⟨img, himg⟩ := Option.isSome_iff_exists.1 h3
    have hfi : fetchImage o =
        (Except.ok (tmpName o), [(tmpName o, FileContent.jpeg img jpegQuality)]) := by
      unfold fetchImage
      simp [h1, h2, himg, h4, h5]
    constructor
    · unfold slotValue; rw [hfi]
    · unfold taskFiles; rw [hfi]; rfl

theorem taskFiles_of_not_ok (o : FetchOutcome) (h : taskOk o = false) :
    taskFiles o = [] ∨
      (taskFiles o = [tmpName o] ∧ o.transportError = false ∧ o.statusCode = 200 ∧
        o.decoded.isSome ∧ o.createTempOk = true ∧ o.encodeOk = false) := by
  unfold taskOk at h
  unfold taskFiles fetchImage at *
  rcases o with ⟨t, s, d, c, r, e⟩
  by_cases hs : s = 200 <;>
    cases t <;> cases c <;> cases e <;> cases d <;> simp_all

theorem tmpName_ne_empty (o : FetchOutcome) : tmpName o ≠ "" := by
  unfold tmpName
  intro h
  have hlen : ("/tmp/slide-" ++ o.tmpRand ++ ".jpg").length = (0 : Nat) := by
    rw [h]; rfl
  rw [String.length_append, String.length_append] at hlen
  have h1 : ("/tmp/slide-" : String).length = 11 := rfl
  have h2 : (".jpg" : String).length = 4 := rfl
  omega

theorem removeFiles_eq_filter (s fs : List String) :
    removeFiles s fs = s.filter (fun g => decide (g ∉ fs)) := by
  induction fs generalizing s with
  | nil => simp [removeFiles]
  | cons f rest ih =>
    show removeFiles (removeFile s f) rest = _
    rw [ih (removeFile s f)]
    unfold removeFile
    rw [List.filter_filter]
    apply List.filter_congr
    intro g _
    by_cases h1 : g = f <;> by_cases h2 : g ∈ rest <;> simp [h1, h2]

theorem removeFiles_eq_nil (s fs : List String) (h : ∀ x ∈ s, x ∈ fs) :
    removeFiles s fs = [] := by
  rw [removeFiles_eq_filter, List.filter_eq_nil_iff]
  intro a ha
  simp [h a ha]

/-- Successful-task paths, in input order: what the cleanup loop removes. -/
theorem results_filter_ne_empty (os : List FetchOutcome) :
    (os.map slotValue).filter (fun f => f ≠ "") =
      (os.filter taskOk).map tmpName := by
  induction os with
  | nil => rfl
  | cons o rest ih =>
    cases h : taskOk o with
    | true =>
      obtain ⟨hv, _⟩ := slotValue_of_ok o h
      rw [List.map_cons, hv,
        @List.filter_cons_of_pos _ (fun f => decide (f ≠ "")) (tmpName o)
          (List.map slotValue rest) (by simpa using tmpName_ne_empty o),
        List.filter_cons_of_pos h, List.map_cons, ih]
    | false =>
      have hv : slotValue o = "" := by
        unfold taskOk at h
        unfold slotValue
        rcases he : (fetchImage o).1 with e | p
        · rfl
        · rw [he] at h; exact absurd h (by simp)
      rw [List.map_cons, hv,
        @List.filter_cons_of_neg _ (fun f => decide (f ≠ "")) ""
          (List.map slotValue rest) (by simp),
        List.filter_cons_of_neg (by simp [h]), ih]

/-- A task that created a temporary file but failed (necessarily during the
JPEG re-encode): its file is the one the cleanup loop misses. -/
def leakedTask (o : FetchOutcome) : Bool :=
  !(taskFiles o).isEmpty && !(taskOk o)

theorem okPaths_subset_created (os : List FetchOutcome) :
    ∀ p ∈ (os.filter taskOk).map tmpName, p ∈ fetchCreated os := by
  induction os with
  | nil => simp
  | cons o rest ih =>
    intro p hp
    unfold fetchCreated at *
    by_cases h : taskOk o = true
    · obtain ⟨_, hf⟩ := slotValue_of_ok o h
      rw [List.filter_cons_of_pos (by simpa using h)] at hp
      simp only [List.map_cons, List.mem_cons] at hp
      simp only [List.map_cons, List.flatten_cons, hf, List.mem_append]
      rcases hp with rfl | hp
      · left; simp
      · right; exact ih p hp
    · rw [List.filter_cons_of_neg (by simpa using h)] at hp
      simp only [List.map_cons, List.flatten_cons, List.mem_append]
      right; exact ih p hp

/-- The cleanup loop removes exactly the successful tasks' files from the
created set; what is left is the files of tasks that created a file and
then failed.  Fresh temporary names (`Nodup`) reflect `os.CreateTemp`'s
uniqueness guarantee. -/
theorem created_minus_ok (os : List FetchOutcome)
    (hnd : (fetchCreated os).Nodup) :
    removeFiles (fetchCreated os) ((os.filter taskOk).map tmpName) =
      (os.filter leakedTask).map tmpName := by
  induction os with
  | nil => simp [fetchCreated, removeFiles]
  | cons o rest ih =>
    have hsplit : fetchCreated (o :: rest) = taskFiles o ++ fetchCreated rest := by
      simp [fetchCreated]
    rw [hsplit] at hnd
    obtain ⟨hnd1, hnd2, hdisj⟩ := List.nodup_append.1 hnd
    rw [removeFiles_eq_filter] at *
    rw [hsplit, List.filter_append]
    cases h : taskOk o with
    | true =>
      obtain ⟨_, hf⟩ := slotValue_of_ok o h
      have hlk : leakedTask o = false := by
        unfold leakedTask; simp [h]
      rw [List.filter_cons_of_pos h, List.filter_cons_of_neg (by simp [hlk]), hf]
      have h1 : List.filter
          (fun g => decide (g ∉ (tmpName o :: (rest.filter taskOk).map tmpName)))
          [tmpName o] = [] := by
        simp
      have h2 : List.filter
          (fun g => decide (g ∉ (tmpName o :: (rest.filter taskOk).map tmpName)))
          (fetchCreated rest) =
          List.filter (fun g => decide (g ∉ (rest.filter taskOk).map tmpName))
          (fetchCreated rest) := by
        apply List.filter_congr
        intro g hg
        have hne : g ≠ tmpName o := by
          intro hgo
          exact hdisj (by rw [hf]; simp [hgo]) hg
        simp [hne]
      rw [List.map_cons, h1, h2, ih hnd2, List.nil_append]
    | false =>
      rcases taskFiles_of_not_ok o (by simp [h]) with hf | ⟨hf, _⟩
      · have hlk : leakedTask o = false := by
          unfold leakedTask; simp [hf]
        rw [List.filter_cons_of_neg (by simp [h]),
          List.filter_cons_of_neg (by simp [hlk]), hf]
        simp only [List.filter_nil, List.nil_append]
        exact ih hnd2
      · have hlk : leakedTask o = true := by
          unfold leakedTask; simp [hf, h]
        have hnotin : tmpName o ∉ (rest.filter taskOk).map tmpName := by
          intro hin
          have hcr : tmpName o ∈ fetchCreated rest := okPaths_subset_created rest _ hin
          exact hdisj (by rw [hf]; simp) hcr
        rw [List.filter_cons_of_neg (by simp [h]),
          List.filter_cons_of_pos hlk, hf, List.map_cons]
        have h1 : List.filter
            (fun g => decide (g ∉ (rest.filter taskOk).map tmpName)) [tmpName o] =
            [tmpName o] := by
          rw [show [tmpName o] = tmpName o :: ([] : List String) from rfl,
            @List.filter_cons_of_pos _
              (fun g => decide (g ∉ (rest.filter taskOk).map tmpName))
              (tmpName o) [] (by simpa using hnotin)]
          rfl
        rw [h1, ih hnd2]
        rfl

theorem fetch_errors_canonical (os : List FetchOutcome) :
    fetchErrorsOrd os (List.range os.length) = os.map slotError :=
  fetchErrorsOrd_perm os _ (List.Perm.refl _)

theorem fetch_results_canonical (os : List FetchOutcome) :
    fetchResultsOrd os (List.range os.length) = os.map slotValue :=
  fetchResultsOrd_perm os _ (List.Perm.refl _)

theorem fetch_ok_of_all_ok (os : List FetchOutcome)
    (hok : ∀ o ∈ os, taskOk o = true) :
    fetchImagesConcurrently os = Except.ok (os.map tmpName) := by
  unfold fetchImagesConcurrently fetchImagesConcurrentlyOrd
  rw [fetch_errors_canonical, fetch_results_canonical]
  have hnone : (os.map slotError).findSome? id = none := by
    rw [findSome?_id_eq_none]
    intro x hx
    obtain ⟨o, ho, rfl⟩ := List.mem_map.1 hx
    exact (slotError_eq_none_iff o).2 (hok o ho)
  rw [hnone]
  have : os.map slotValue = os.map tmpName := by
    apply List.map_congr_left
    intro o ho
    exact (slotValue_of_ok o (hok o ho)).1
  rw [this]

theorem fetch_all_ok_of_ok (os : List FetchOutcome) (ps : List String)
    (h : fetchImagesConcurrently os = Except.ok ps) :
    (∀ o ∈ os, taskOk o = true) ∧ ps = os.map tmpName := by
  unfold fetchImagesConcurrently fetchImagesConcurrentlyOrd at h
  rw [fetch_errors_canonical, fetch_results_canonical] at h
  cases he : (os.map slotError).findSome? id with
  | some e => rw [he] at h; exact absurd h (by simp)
  | none =>
    rw [he] at h
    have hall : ∀ o ∈ os, taskOk o = true := by
      intro o ho
      have := (findSome?_id_eq_none (os.map slotError)).1 he (slotError o)
        (List.mem_map_of_mem slotError ho)
      exact (slotError_eq_none_iff o).1 this
    refine ⟨hall, ?_⟩
    have hv : os.map slotValue = os.map tmpName := by
      apply List.map_congr_left
      intro o ho
      exact (slotValue_of_ok o (hall o ho)).1
    cases h
    rw [hv]

theorem fetch_error_of_fail (os : List FetchOutcome)
    (hfail : ∃ o ∈ os, taskOk o = false) :
    ∃ e, fetchImagesConcurrently os = Except.error e ∧ e.statusCode = 500 := by
  unfold fetchImagesConcurrently fetchImagesConcurrentlyOrd
  rw [fetch_errors_canonical]
  cases he : (os.map slotError).findSome? id with
  | some e => exact ⟨_, rfl, rfl⟩
  | none =>
    obtain ⟨o, ho, hbad⟩ := hfail
    have := (findSome?_id_eq_none (os.map slotError)).1 he (slotError o)
      (List.mem_map_of_mem slotError ho)
    rw [(slotError_eq_none_iff o).1 this] at hbad
    exact absurd hbad (by simp)

theorem fetchRemaining_of_fail (os : List FetchOutcome)
    (hnd : (fetchCreated os).Nodup)
    (hfail : ∃ o ∈ os, taskOk o = false) :
    fetchRemaining os = (os.filter leakedTask).map tmpName := by
  unfold fetchRemaining fetchRemainingOrd
  rw [fetch_errors_canonical, fetch_results_canonical]
  cases he : (os.map slotError).findSome? id with
  | some e =>
    rw [results_filter_ne_empty]
    exact created_minus_ok os hnd
  | none =>
    obtain ⟨o, ho, hbad⟩ := hfail
    have := (findSome?_id_eq_none (os.map slotError)).1 he (slotError o)
      (List.mem_map_of_mem slotError ho)
    rw [(slotError_eq_none_iff o).1 this] at hbad
    exact absurd hbad (by simp)

theorem created_of_all_ok (os : List FetchOutcome)
    (hall : ∀ o ∈ os, taskOk o = true) :
    fetchCreated os = os.map tmpName := by
  induction os with
  | nil => rfl
  | cons o rest ih =>
    have ho : taskOk o = true := hall o (by simp)
    obtain ⟨_, hf⟩ := slotValue_of_ok o ho
    unfold fetchCreated at *
    simp only [List.map_cons, List.flatten_cons, hf]
    rw [List.cons_append, List.nil_append,
      ih (fun o' ho' => hall o' (by simp [ho']))]

theorem fetchRemaining_of_ok (os : List FetchOutcome) (ps : List String)
    (h : fetchImagesConcurrently os = Except.ok ps) :
    fetchRemaining os = ps := by
  obtain ⟨hall, rfl⟩ := fetch_all_ok_of_ok os ps h
  unfold fetchRemaining fetchRemainingOrd
  rw [fetch_errors_canonical]
  have hnone : (os.map slotError).findSome? id = none := by
    rw [findSome?_id_eq_none]
    intro x hx
    obtain ⟨o, ho, rfl⟩ := List.mem_map.1 hx
    exact (slotError_eq_none_iff o).2 (hall o ho)
  rw [hnone]
  exact created_of_all_ok os hall

theorem fetchImage_eq_of_ok (o : FetchOutcome) (img : Nat)
    (himg : o.decoded = some img) (h : taskOk o = true) :
    fetchImage o =
      (Except.ok (tmpName o), [(tmpName o, FileContent.jpeg img jpegQuality)]) := by
  obtain ⟨h1, h2, _, h4, h5⟩ := (taskOk_iff o).1 h
  unfold fetchImage
  simp [h1, h2, himg, h4, h5]

/-! ## Claim C1 — all-or-nothing fetch cleanup -/

/-- A successful sibling task and a task whose fetch fails during the JPEG
re-encode, after its temporary file was already created. -/
def c1okTask : FetchOutcome := ⟨false, 200, some 1, true, "a", true⟩

/-- See `c1okTask`. -/
def c1leakTask : FetchOutcome := ⟨false, 200, some 2, true, "b", false⟩

/-- C1 counterexample: with one successful task and one task that fails
during re-encode, the call returns an error but the failed task's
already-created temporary file survives on storage, so the claim's
"zero temporary files" part is false. -/
theorem claim1_counterexample :
    (∃ e, fetchImagesConcurrently [c1okTask, c1leakTask] = Except.error e) ∧
      fetchRemaining [c1okTask, c1leakTask] = ["/tmp/slide-b.jpg"] ∧
      fetchRemaining [c1okTask, c1leakTask] ≠ [] := by
  refine ⟨⟨_, rfl⟩, rfl, by decide⟩

/-- C1 (amended): if at least one per-URL fetch task fails, the bounded
fetcher returns an error only (status 500) and no local paths, and every
temporary file created by a task that completed successfully is deleted
before the call returns; however, a temporary file created by a task that
then failed during the JPEG re-encode is NOT deleted — exactly the files
of such tasks remain on storage.  (Temporary names are assumed pairwise
fresh, as `os.CreateTemp` guarantees.) -/
theorem claim1_amended (os : List FetchOutcome)
    (hnd : (fetchCreated os).Nodup)
    (hfail : ∃ o ∈ os, taskOk o = false) :
    (∃ e, fetchImagesConcurrently os = Except.error e ∧ e.statusCode = 500) ∧
      (∀ ps, fetchImagesConcurrently os ≠ Except.ok ps) ∧
      fetchRemaining os = (os.filter leakedTask).map tmpName := by
  obtain ⟨e, he, h500⟩ := fetch_error_of_fail os hfail
  refine ⟨⟨e, he, h500⟩, ?_, fetchRemaining_of_fail os hnd hfail⟩
  intro ps hps
  rw [he] at hps
  exact absurd hps (by simp)

/-- Witness for C1 (amended) at a concrete input: the successful sibling's
file is removed, the re-encode failure's file is the only one left. -/
theorem claim1_amended_witness :
    (∃ e, fetchImagesConcurrently [c1okTask, c1leakTask] = Except.error e ∧
        e.statusCode = 500) ∧
      fetchRemaining [c1okTask, c1leakTask] =
        ([c1okTask, c1leakTask].filter leakedTask).map tmpName := by
  have h := claim1_amended [c1okTask, c1leakTask] (by decide)
    ⟨c1leakTask, by decide, by decide⟩
  exact ⟨h.1, h.2.2⟩

/-! ## Claim C2 — positional results, independent of completion order -/

/-- C2: when every task succeeds, the fetcher — observed under ANY
completion order of the parallel tasks — returns exactly one path per
input URL, the path at position `i` being the temporary file produced for
input URL `i`; the outcome equals the canonical (index-order) run. -/
theorem claim2_order_independent (os : List FetchOutcome) (order : List Nat)
    (hok : ∀ o ∈ os, taskOk o = true)
    (hperm : order.Perm (List.range os.length)) :
    fetchImagesConcurrentlyOrd os order = Except.ok (os.map tmpName) ∧
      (os.map tmpName).length = os.length ∧
      (∀ i, i < os.length → (os.map tmpName)[i]? = (os[i]?).map tmpName) ∧
      fetchImagesConcurrentlyOrd os order = fetchImagesConcurrently os := by
  have hcan := (fetchOrd_eq_canonical os order hperm).1
  have hok' := fetch_ok_of_all_ok os hok
  refine ⟨by rw [hcan, hok'], by simp, ?_, hcan⟩
  intro i _
  simp

/-- Witness for C2 at a concrete input: two tasks completing in reversed
order still fill the slots positionally. -/
theorem claim2_witness :
    fetchImagesConcurrentlyOrd [c1okTask, ⟨false, 200, some 3, true, "c", true⟩]
        [1, 0] =
      Except.ok ["/tmp/slide-a.jpg", "/tmp/slide-c.jpg"] := by
  have h := claim2_order_independent
    [c1okTask, ⟨false, 200, some 3, true, "c", true⟩] [1, 0]
    (by decide) (by decide)
  exact h.1

/-! ## Claim C5 — single fetch task behaviour -/

/-- A response with HTTP status 206: a 2xx status that is not 200. -/
def c5status206 : FetchOutcome := ⟨false, 206, some 0, true, "w", true⟩

/-- C5 counterexample: the claim says a task fails exactly on timeout,
non-2xx status, or undecodable body.  Status 206 is a 2xx status, there is
no transport error, the body decodes, and both local I/O steps succeed —
yet the code fails the task, because it compares the status against 200
exactly. -/
theorem claim5_counterexample :
    (200 ≤ c5status206.statusCode ∧ c5status206.statusCode < 300) ∧
      c5status206.transportError = false ∧
      c5status206.decoded.isSome = true ∧
      c5status206.createTempOk = true ∧
      c5status206.encodeOk = true ∧
      (fetchImage c5status206).1 = Except.error (FetchErr.badStatus 206) := by
  exact ⟨by decide, rfl, rfl, rfl, rfl, rfl⟩

/-- C5 (amended): a single fetch task issues one GET with a fixed
20-second timeout and no retry; it succeeds exactly when there is no
transport error (timeouts included), the status is exactly 200 (so non-200
2xx statuses also fail), the body decodes as an image (GIF/PNG/JPEG/WebP
decoders registered), the temporary file is created, and the JPEG encode
succeeds; on success it has re-encoded the decoded image as JPEG at fixed
quality 90 into the freshly created, uniquely named temporary file and
returns that file's path. -/
theorem claim5_amended (o : FetchOutcome) :
    ((∃ p, (fetchImage o).1 = Except.ok p) ↔
        (o.transportError = false ∧ o.statusCode = 200 ∧ o.decoded.isSome ∧
          o.createTempOk = true ∧ o.encodeOk = true)) ∧
      (∀ p, (fetchImage o).1 = Except.ok p → p = tmpName o) ∧
      (∀ img, o.decoded = some img → taskOk o = true →
        (fetchImage o).2 = [(tmpName o, FileContent.jpeg img jpegQuality)]) ∧
      jpegQuality = 90 ∧ fetchTimeoutSeconds = 20 := by
  refine ⟨⟨?_, ?_⟩, ?_, ?_, rfl, rfl⟩
  · intro ⟨p, hp⟩
    have := (fetchImage_ok_iff o p).1 hp
    tauto
  · intro h
    exact ⟨tmpName o, (fetchImage_ok_iff o (tmpName o)).2 (by tauto)⟩
  · intro p hp
    exact ((fetchImage_ok_iff o p).1 hp).2.2.2.2.2
  · intro img himg hok
    rw [fetchImage_eq_of_ok o img himg hok]

/-- Witness for C5 (amended) at a concrete input. -/
theorem claim5_amended_witness :
    (fetchImage c1okTask).1 = Except.ok "/tmp/slide-a.jpg" ∧
      (fetchImage c1okTask).2 =
        [("/tmp/slide-a.jpg", FileContent.jpeg 1 jpegQuality)] := by
  have h := claim5_amended c1okTask
  have hok : (∃ p, (fetchImage c1okTask).1 = Except.ok p) :=
    h.1.2 ⟨rfl, rfl, rfl, rfl, rfl⟩
  obtain ⟨p, hp⟩ := hok
  have hpn := h.2.1 p hp
  subst hpn
  exact ⟨hp, h.2.2.1 1 rfl (by decide)⟩

/-! ## Claim C10 — successful fetch yields non-empty, non-blank paths -/

/-- The guard of the `"No images to convert to PDF"` branch of
`ConvertURLsToPDF`: it fires only when the fetcher succeeded and returned
an empty slice. -/
def noImagesToConvertBranch (os : List FetchOutcome) : Bool :=
  match fetchImagesConcurrently os with
  | Except.ok ps => ps.isEmpty
  | Except.error _ => false

/-- C10: a successful fetch over a non-empty URL list returns exactly one
path per URL, each non-empty; hence the `"No images to convert to PDF"`
branch of the PDF conversion path cannot fire for the non-empty URL lists
the orchestrator passes. -/
theorem claim10_no_images_branch_unreachable (os : List FetchOutcome)
    (ps : List String) (hne : os ≠ [])
    (hok : fetchImagesConcurrently os = Except.ok ps) :
    ps.length = os.length ∧ (∀ p ∈ ps, p ≠ "") ∧ ps ≠ [] ∧
      noImagesToConvertBranch os = false := by
  obtain ⟨hall, rfl⟩ := fetch_all_ok_of_ok os ps hok
  refine ⟨by simp, ?_, ?_, ?_⟩
  · intro p hp
    obtain ⟨o, _, rfl⟩ := List.mem_map.1 hp
    exact tmpName_ne_empty o
  · simpa using hne
  · unfold noImagesToConvertBranch
    rw [hok]
    simpa using hne

/-- Witness for C10 at a concrete input. -/
theorem claim10_witness :
    (["/tmp/slide-a.jpg"] : List String).length = [c1okTask].length ∧
      noImagesToConvertBranch [c1okTask] = false := by
  have h := claim10_no_images_branch_unreachable [c1okTask]
    ["/tmp/slide-a.jpg"] (by decide) rfl
  exact ⟨h.1, h.2.2.2⟩

/-! ## Resolution selection (`GetSlidesDownloadLink`, selection section)

A slide is the `map[int]string` built from one `srcset` attribute: an
association of pixel widths to image URLs (Go map keys are unique; an
association list with `lookup` models the read `slide[quality]`). -/

/-- One slide's width→URL resolutions map. -/
def Slide : Type := List (Nat × String)

/-- `slide[quality]` with its `exists` flag. -/
def slideLookup (s : Slide) (w : Nat) : Option String :=
  List.lookup w s

/-- The fixed target width of a quality tier: `quality := 2048`, and
`if qualityType == SD { quality = 638 }`. -/
def qualityWidth : QualityType → Nat
  | QualityType.HD => 2048
  | QualityType.SD => 638

/-- The selection loop: for each slide in manifest order, append its URL
at the target width if present, else skip the slide. -/
def selectImages (slides : List Slide) (w : Nat) : List String :=
  slides.foldl (fun acc s =>
    match slideLookup s w with
    | some u => acc ++ [u]
    | none => acc) []

/-- The selection section of `GetSlidesDownloadLink`: empty selection is a
404 whose detail is `fmt.Sprintf("No %dpx resolution slides found",
quality)`; otherwise the selected URLs with `thumbnail :=
highResImages[0]`. -/
def selectResolution (slides : List Slide) (q : QualityType) :
    Except CustomAPIError (List String × String) :=
  let imgs := selectImages slides (qualityWidth q)
  match imgs with
  | [] => Except.error
      ⟨404, "No " ++ toString (qualityWidth q) ++ "px resolution slides found"⟩
  | t :: _ => Except.ok (imgs, t)

theorem selectImages_go (slides : List Slide) (w : Nat) (acc : List String) :
    slides.foldl (fun acc s =>
        match slideLookup s w with
        | some u => acc ++ [u]
        | none => acc) acc =
      acc ++ slides.filterMap (fun s => slideLookup s w) := by
  induction slides generalizing acc with
  | nil => simp
  | cons s rest ih =>
    simp only [List.foldl_cons]
    cases h : slideLookup s w with
    | none => rw [ih acc, List.filterMap_cons, h]
    | some u => rw [ih (acc ++ [u]), List.filterMap_cons, h]; simp

/-! ## Claim C3 — resolution selection, empty-manifest 404, thumbnail -/

/-- C3: HD maps to width 2048 and SD to 638; the selection appends, in
manifest order, the URL of each slide that offers exactly the target width
and silently skips slides lacking it (it equals the in-order `filterMap`
of the exact-width lookup); an empty selection fails with a 404 whose
detail names the target width; otherwise the thumbnail is the first
selected URL. -/
theorem claim3_resolution_selection (slides : List Slide) (q : QualityType) :
    qualityWidth QualityType.HD = 2048 ∧ qualityWidth QualityType.SD = 638 ∧
      selectImages slides (qualityWidth q) =
        slides.filterMap (fun s => slideLookup s (qualityWidth q)) ∧
      (selectImages slides (qualityWidth q) = [] →
        selectResolution slides q = Except.error
          ⟨404, "No " ++ toString (qualityWidth q) ++
            "px resolution slides found"⟩) ∧
      (∀ imgs thumb, selectResolution slides q = Except.ok (imgs, thumb) →
        imgs = selectImages slides (qualityWidth q) ∧ imgs.head? = some thumb) := by
  refine ⟨rfl, rfl, selectImages_go slides (qualityWidth q) [], ?_, ?_⟩
  · intro hempty
    unfold selectResolution
    rw [hempty]
  · intro imgs thumb h
    unfold selectResolution at h
    cases hsel : selectImages slides (qualityWidth q) with
    | nil => rw [hsel] at h; exact absurd h (by simp)
    | cons t rest =>
      rw [hsel] at h
      simp only [Except.ok.injEq, Prod.mk.injEq] at h
      obtain ⟨h1, h2⟩ := h
      subst h1; subst h2
      exact ⟨rfl, rfl⟩

/-- Witness for C3 at concrete inputs: a manifest where the middle slide
lacks the 2048 width is skipped, the other two are selected in order, and
the thumbnail is the first selected URL; a manifest with no 638-width
slide yields the 404 with "638px" in the detail. -/
theorem claim3_witness :
    (["u1", "u3"] : List String) =
        selectImages
          ([[(2048, "u1"), (638, "s1")], [(638, "s2")], [(2048, "u3")]] :
            List Slide) (qualityWidth QualityType.HD) ∧
      (["u1", "u3"] : List String).head? = some "u1" ∧
      selectResolution ([[(2048, "u1")]] : List Slide) QualityType.SD =
        Except.error ⟨404, "No 638px resolution slides found"⟩ := by
  have h1 := claim3_resolution_selection
    ([[(2048, "u1"), (638, "s1")], [(638, "s2")], [(2048, "u3")]] :
      List Slide) QualityType.HD
  have h2 := claim3_resolution_selection ([[(2048, "u1")]] : List Slide)
    QualityType.SD
  have ha := h1.2.2.2.2 ["u1", "u3"] "u1" rfl
  refine ⟨ha.1, ha.2, ?_⟩
  have := h2.2.2.2.1 (by rfl)
  simpa using this

/-! ## Claim C4 — source-page fetch failure classification

`FetchSlideImages` issues the page GET: a transport error from
`client.Do` becomes `CustomAPIError{500, ...}`, but a non-OK status
becomes `CustomAPIError{resp.StatusCode(), ...}` — the upstream's own
status code, not 500. -/

/-- Outcome of the source-page GET in `FetchSlideImages`. -/
structure PageFetchOutcome where
  transportError : Bool
  statusCode : Nat
deriving DecidableEq, Repr

/-- The fetch-classification prefix of `FetchSlideImages`: `none` means
the function proceeds to parse the body. -/
def pageFetchClassify (o : PageFetchOutcome) : Option CustomAPIError :=
  if o.transportError then
    some ⟨500, "Failed to fetch the presentation page"⟩
  else if o.statusCode ≠ 200 then
    some ⟨o.statusCode, "Failed to fetch the presentation page"⟩
  else
    none

/-- C4 counterexample: a page fetch completing with status 404 (a non-OK
status) is classified with status code 404, not 500 — the code propagates
`resp.StatusCode()` instead of the claimed fixed 500. -/
theorem claim4_counterexample :
    pageFetchClassify ⟨false, 404⟩ =
        some ⟨404, "Failed to fetch the presentation page"⟩ ∧
      (404 : Nat) ≠ 500 := by
  exact ⟨rfl, by decide⟩

/-- C4 (amended): a transport error on the source-page fetch is classified
as a 500 error; a non-OK HTTP status is classified as an error carrying
the upstream response's own status code (so it is 500 only when the
upstream itself returned 500); status 200 proceeds without error. -/
theorem claim4_amended (o : PageFetchOutcome) :
    (o.transportError = true →
        pageFetchClassify o = some ⟨500, "Failed to fetch the presentation page"⟩) ∧
      (o.transportError = false → o.statusCode ≠ 200 →
        pageFetchClassify o =
          some ⟨o.statusCode, "Failed to fetch the presentation page"⟩) ∧
      (o.transportError = false → o.statusCode = 200 →
        pageFetchClassify o = none) := by
  refine ⟨?_, ?_, ?_⟩
  · intro h; unfold pageFetchClassify; rw [if_pos (by simp [h])]
  · intro h hs
    unfold pageFetchClassify
    rw [if_neg (by simp [h]), if_pos hs]
  · intro h hs
    unfold pageFetchClassify
    rw [if_neg (by simp [h]), if_neg (by simp [hs])]

/-- Witness for C4 (amended) at concrete inputs: a transport failure is a
500; an upstream 503 crosses the boundary as 503. -/
theorem claim4_amended_witness :
    pageFetchClassify ⟨true, 0⟩ =
        some ⟨500, "Failed to fetch the presentation page"⟩ ∧
      pageFetchClassify ⟨false, 503⟩ =
        some ⟨503, "Failed to fetch the presentation page"⟩ := by
  exact ⟨(claim4_amended ⟨true, 0⟩).1 rfl,
    (claim4_amended ⟨false, 503⟩).2.1 rfl (by decide)⟩

/-! ## URL validation and document short name (`ValidateURL`,
`GetSlidesDownloadLink` pre-fetch phase)

`url.Parse` is modelled by its outcome: `none` when parsing fails, else
the parsed host and path.  `GetSlidesDownloadLink` parses the same string
twice (once in `ValidateURL`, once for the path), with the same result. -/

/-- The fields of a parsed URL the code reads. -/
structure ParsedURL where
  host : String
  path : String
deriving DecidableEq, Repr

/-- Go `strings.Trim(s, "/")`: strip leading and trailing `/`. -/
def trimSlashes (s : String) : String :=
  String.mk (((s.toList.dropWhile (fun c => c == '/')).reverse.dropWhile
    (fun c => c == '/')).reverse)

/-- Go `strings.Split(s, "/")` on the character list: cut at every `/`;
the empty string yields `[""]`. -/
def splitSlash (cs : List Char) : List (List Char) :=
  match cs with
  | [] => [[]]
  | c :: rest =>
    let segs := splitSlash rest
    if c == '/' then [] :: segs
    else
      match segs with
      | seg :: more => (c :: seg) :: more
      | [] => [[c]]

/-- `strings.Split(strings.Trim(u.Path, "/"), "/")` — note Go's `Split` on
an empty string yields `[""]`. -/
def pathParts (p : String) : List String :=
  (splitSlash (trimSlashes p).toList).map String.mk

/-- Embeds `ValidateURL`: parse failure is a 400, a host other than
exactly `www.slideshare.net` is a 400, anything else passes. -/
def validateURL (u : Option ParsedURL) : Option CustomAPIError :=
  match u with
  | none => some ⟨400, "Invalid URL"⟩
  | some pu =>
    if pu.host ≠ "www.slideshare.net" then some ⟨400, "Invalid SlideShare URL"⟩
    else none

/-- The pre-network phase of `GetSlidesDownloadLink`: validate, re-parse,
split the trimmed path, and require at least two segments; on success the
document short name is the second-to-last segment
(`pathParts[len(pathParts)-2]`). -/
def getSlidesPre (u : Option ParsedURL) : Except CustomAPIError String :=
  match validateURL u with
  | some e => Except.error e
  | none =>
    match u with
    | none => Except.error ⟨400, "Invalid URL format"⟩
    | some pu =>
      let parts := pathParts pu.path
      if parts.length < 2 then Except.error ⟨400, "Invalid SlideShare URL format"⟩
      else Except.ok (parts.getD (parts.length - 2) "")

/-- `GetSlidesDownloadLink` with everything from the manifest fetch onward
abstracted as a continuation `net` consuming the document short name: the
pre-network phase either short-circuits the pipeline or hands over. -/
def getSlidesPipeline {α : Type} (u : Option ParsedURL)
    (net : String → Except CustomAPIError α) : Except CustomAPIError α :=
  match getSlidesPre u with
  | Except.error e => Except.error e
  | Except.ok docShort => net docShort

/-! ## Claim C9 — host/path validation before any fetch, docShort -/

/-- C9: if the parsed host is not exactly `www.slideshare.net`, or the
trimmed path splits into fewer than two segments, the pipeline fails with
a 400 error whose value does not depend on the network continuation — no
fetch is performed; on success the document short name is the
second-to-last path segment. -/
theorem claim9_validation (u : ParsedURL) :
    ((u.host ≠ "www.slideshare.net" ∨ (pathParts u.path).length < 2) →
        ∃ e, getSlidesPre (some u) = Except.error e ∧ e.statusCode = 400 ∧
          ∀ (α : Type) (net : String → Except CustomAPIError α),
            getSlidesPipeline (some u) net = Except.error e) ∧
      (∀ d, getSlidesPre (some u) = Except.ok d →
        u.host = "www.slideshare.net" ∧ 2 ≤ (pathParts u.path).length ∧
          d = (pathParts u.path).getD ((pathParts u.path).length - 2) "") := by
  constructor
  · intro hbad
    by_cases hh : u.host = "www.slideshare.net"
    · have hlen : (pathParts u.path).length < 2 := by tauto
      refine ⟨⟨400, "Invalid SlideShare URL format"⟩, ?_, rfl, ?_⟩
      · simp [getSlidesPre, validateURL, hh, hlen]
      · intro α net
        simp [getSlidesPipeline, getSlidesPre, validateURL, hh, hlen]
    · refine ⟨⟨400, "Invalid SlideShare URL"⟩, ?_, rfl, ?_⟩
      · simp [getSlidesPre, validateURL, hh]
      · intro α net
        simp [getSlidesPipeline, getSlidesPre, validateURL, hh]
  · intro d hd
    by_cases hh : u.host = "www.slideshare.net"
    · by_cases hlen : (pathParts u.path).length < 2
      · simp [getSlidesPre, validateURL, hh, hlen] at hd
      · simp [getSlidesPre, validateURL, hh, hlen] at hd
        exact ⟨hh, by omega, by simpa using hd.symm⟩
    · simp [getSlidesPre, validateURL, hh] at hd

/-- Witness for C9 at concrete inputs: a wrong host fails with 400 without
consulting the network; a valid two-segment SlideShare URL yields the
second-to-last segment (`"somedoc"` from path `/somedoc/12345/`). -/
theorem claim9_witness :
    getSlidesPipeline (some ⟨"evil.example.com", "/somedoc/12345"⟩)
        (fun _ => Except.ok (0 : Nat)) =
      Except.error ⟨400, "Invalid SlideShare URL"⟩ ∧
    ("somedoc" : String) =
      (pathParts "/somedoc/12345/").getD ((pathParts "/somedoc/12345/").length - 2) "" := by
  constructor
  · obtain ⟨e, he, h400, hnet⟩ :=
      (claim9_validation ⟨"evil.example.com", "/somedoc/12345"⟩).1
        (Or.inl (by decide))
    have hval : getSlidesPre (some ⟨"evil.example.com", "/somedoc/12345"⟩) =
        Except.error ⟨400, "Invalid SlideShare URL"⟩ := by decide
    rw [hval] at he
    obtain rfl : e = ⟨400, "Invalid SlideShare URL"⟩ := by
      simpa using he.symm
    exact hnet Nat (fun _ => Except.ok 0)
  · have := (claim9_validation ⟨"www.slideshare.net", "/somedoc/12345/"⟩).2
      "somedoc" (by decide)
    exact this.2.2

/-! ## Archive exporter (`ConvertURLsToZip`, zip-building loop)

For each fetched image, in input order: open the local file, create a zip
entry named `image_<i+1>.jpg`, and `io.Copy` the file's bytes into the
entry.  Each step can fail with its own 500 error that aborts the whole
archive.  File contents are abstract byte lists; `io.Copy` copies them
verbatim (the zip container's compression is transparent on extraction). -/

/-- Per-image outcome of the zip-building loop: whether `os.Open`,
`zipWriter.Create` and `io.Copy` succeed, and the image file's bytes. -/
structure ZipImg where
  openOk : Bool
  createOk : Bool
  copyOk : Bool
  content : List Nat
deriving DecidableEq, Repr

/-- The name of the `i`-th (0-based) zip entry:
`fmt.Sprintf("image_%d.jpg", i+1)`. -/
def entryName (i : Nat) : String :=
  "image_" ++ toString (i + 1) ++ ".jpg"

/-- The zip-building loop of `ConvertURLsToZip`, from image `i` on, with
the entries written so far. -/
def buildZipEntriesGo :
    Nat → List ZipImg → List (String × List Nat) →
      Except CustomAPIError (List (String × List Nat))
  | _, [], acc => Except.ok acc
  | i, img :: rest, acc =>
    if ¬ img.openOk then
      Except.error ⟨500, "Failed to open image"⟩
    else if ¬ img.createOk then
      Except.error ⟨500, "Failed to create zip entry"⟩
    else if ¬ img.copyOk then
      Except.error ⟨500, "Failed to write to zip"⟩
    else
      buildZipEntriesGo (i + 1) rest (acc ++ [(entryName i, img.content)])

/-- The zip-building loop over the whole image list. -/
def buildZipEntries (imgs : List ZipImg) :
    Except CustomAPIError (List (String × List Nat)) :=
  buildZipEntriesGo 0 imgs []

/-- All steps of one image's zip iteration succeed. -/
def zipStepOk (g : ZipImg) : Bool :=
  g.openOk && g.createOk && g.copyOk

/-- The entries the loop produces from image index `i` on (0-based; the
entry name uses the 1-based index `i+1`). -/
def zipSpec : Nat → List ZipImg → List (String × List Nat)
  | _, [] => []
  | i, g :: rest => (entryName i, g.content) :: zipSpec (i + 1) rest

theorem zipSpec_length (imgs : List ZipImg) :
    ∀ i : Nat, (zipSpec i imgs).length = imgs.length := by
  induction imgs with
  | nil => intro i; rfl
  | cons g rest ih => intro i; simp [zipSpec, ih (i + 1)]

theorem zipSpec_getElem? (imgs : List ZipImg) :
    ∀ (i j : Nat),
      (zipSpec i imgs)[j]? =
        (imgs[j]?).map (fun g => (entryName (i + j), g.content)) := by
  induction imgs with
  | nil => intro i j; simp [zipSpec]
  | cons g rest ih =>
    intro i j
    cases j with
    | zero => simp [zipSpec]
    | succ j' =>
      simp only [zipSpec, List.getElem?_cons_succ]
      rw [ih (i + 1) j']
      have : i + 1 + j' = i + (j' + 1) := by omega
      rw [this]

theorem buildZipEntriesGo_all_ok (imgs : List ZipImg) :
    ∀ (i : Nat) (acc : List (String × List Nat)),
      (∀ g ∈ imgs, zipStepOk g = true) →
      buildZipEntriesGo i imgs acc = Except.ok (acc ++ zipSpec i imgs) := by
  induction imgs with
  | nil => intro i acc _; simp [buildZipEntriesGo, zipSpec]
  | cons g rest ih =>
    intro i acc hok
    have hg : zipStepOk g = true := hok g (by simp)
    unfold zipStepOk at hg
    simp only [Bool.and_eq_true] at hg
    unfold buildZipEntriesGo
    rw [if_neg (by simp [hg.1.1]), if_neg (by simp [hg.1.2]),
      if_neg (by simp [hg.2]),
      ih (i + 1) (acc ++ [(entryName i, g.content)])
        (fun g' hg' => hok g' (by simp [hg']))]
    rw [List.append_assoc, List.singleton_append]
    rfl

theorem buildZipEntriesGo_fail (imgs : List ZipImg) :
    ∀ (i : Nat) (acc : List (String × List Nat)),
      (∃ g ∈ imgs, zipStepOk g = false) →
      ∃ e, buildZipEntriesGo i imgs acc = Except.error e ∧ e.statusCode = 500 := by
  induction imgs with
  | nil => intro i acc h; simp at h
  | cons g rest ih =>
    intro i acc hbad
    unfold buildZipEntriesGo
    by_cases h1 : g.openOk = true
    · by_cases h2 : g.createOk = true
      · by_cases h3 : g.copyOk = true
        · rw [if_neg (by simp [h1]), if_neg (by simp [h2]), if_neg (by simp [h3])]
          apply ih
          obtain ⟨g', hg', hbad'⟩ := hbad
          rcases List.mem_cons.1 hg' with rfl | hmem
          · rw [show zipStepOk g' = true by simp [zipStepOk, h1, h2, h3]] at hbad'
            exact absurd hbad' (by simp)
          · exact ⟨g', hmem, hbad'⟩
        · rw [if_neg (by simp [h1]), if_neg (by simp [h2]),
            if_pos (by simp [h3])]
          exact ⟨_, rfl, rfl⟩
      · rw [if_neg (by simp [h1]), if_pos (by simp [h2])]
        exact ⟨_, rfl, rfl⟩
    · rw [if_pos (by simp [h1])]
      exact ⟨_, rfl, rfl⟩

/-! ## Claim C6 — archive entry naming, ordering and byte fidelity -/

/-- C6: when every per-entry I/O step succeeds, the archive holds exactly
one entry per image, in input order, the `i`-th entry named
`image_<i+1>.jpg` and carrying the source file's bytes verbatim — so
walking the entries in the order `image_1.jpg`, `image_2.jpg`, … returns
exactly the original fetched contents; and if any step of any entry
fails, the whole archive aborts with a 500 export error. -/
theorem claim6_zip_roundtrip (imgs : List ZipImg)
    (hok : ∀ g ∈ imgs, zipStepOk g = true) :
    (∃ entries, buildZipEntries imgs = Except.ok entries ∧
        entries.length = imgs.length ∧
        (∀ i, i < imgs.length →
          entries[i]? = (imgs[i]?).map (fun g => (entryName i, g.content)))) ∧
      (∀ imgs2 : List ZipImg, (∃ g ∈ imgs2, zipStepOk g = false) →
        ∃ e, buildZipEntries imgs2 = Except.error e ∧ e.statusCode = 500) := by
  constructor
  · refine ⟨zipSpec 0 imgs, ?_, zipSpec_length imgs 0, ?_⟩
    · have := buildZipEntriesGo_all_ok imgs 0 [] hok
      simpa [buildZipEntries] using this
    · intro i _
      rw [zipSpec_getElem? imgs 0 i]
      have : (0 : Nat) + i = i := by omega
      rw [this]
  · intro imgs2 hbad
    exact buildZipEntriesGo_fail imgs2 0 [] hbad

/-- Witness for C6 at concrete inputs: two good images produce
`image_1.jpg`/`image_2.jpg` with their exact bytes; a failing `io.Copy`
aborts with a 500. -/
theorem claim6_witness :
    buildZipEntries [⟨true, true, true, [7, 7]⟩, ⟨true, true, true, [9]⟩] =
        Except.ok [("image_1.jpg", [7, 7]), ("image_2.jpg", [9])] ∧
      (∃ e, buildZipEntries [⟨true, true, false, [1]⟩] = Except.error e ∧
        e.statusCode = 500) := by
  have h := claim6_zip_roundtrip
    [⟨true, true, true, [7, 7]⟩, ⟨true, true, true, [9]⟩] (by decide)
  obtain ⟨⟨entries, hentries, hlen, hat⟩, habort⟩ := h
  constructor
  · have h0 := hat 0 (by decide)
    have h1 := hat 1 (by decide)
    rw [hentries]
    have hlen2 : entries.length = 2 := by simpa using hlen
    cases entries with
    | nil => simp at hlen2
    | cons a t =>
      cases t with
      | nil => simp at hlen2
      | cons b t2 =>
        cases t2 with
        | cons c t3 => simp at hlen2
        | nil =>
          obtain rfl : a = ("image_1.jpg", [7, 7]) := by
            simpa [entryName] using h0
          obtain rfl : b = ("image_2.jpg", [9]) := by
            simpa [entryName] using h1
          rfl
  · exact habort [⟨true, true, false, [1]⟩]
      ⟨⟨true, true, false, [1]⟩, by decide, by decide⟩

/-! ## PDF exporter (`convertImagePathsToPDF`)

`gofpdf.New("P", "mm", "A4", "")` fixes a portrait A4 page in millimetre
units; gofpdf stores A4 as 595.28 × 841.89 points and `GetPageSize`
returns those divided by the mm scale factor `k = 72 / 25.4`.  For each
image path, in order, the code opens the file, reads only the pixel
dimensions via `image.DecodeConfig` (no full decode), computes
`ratio = math.Min(pageWidth/width, pageHeight/height)`, adds a page, and
places the image at `(0, 0)` with size `(width*ratio, height*ratio)`.
Real arithmetic is modelled over `ℚ`. -/

/-- A4 page width in millimetres as gofpdf computes it
(`595.28 pt / (72/25.4)`). -/
def a4PageWidth : ℚ := (59528 / 100) / (72 / (254 / 10))

/-- A4 page height in millimetres as gofpdf computes it
(`841.89 pt / (72/25.4)`). -/
def a4PageHeight : ℚ := (84189 / 100) / (72 / (254 / 10))

/-- Per-image outcome for the PDF loop: whether `os.Open` and
`image.DecodeConfig` succeed, and the pixel dimensions DecodeConfig
reports. -/
structure PdfImg where
  openOk : Bool
  cfgOk : Bool
  width : Nat
  height : Nat
deriving DecidableEq, Repr

/-- One image placement on a PDF page: position and size in page units, as
passed to `pdf.Image(imgPath, x, y, w, h, ...)`. -/
structure PlacedImage where
  x : ℚ
  y : ℚ
  w : ℚ
  h : ℚ
deriving DecidableEq, Repr

/-- A PDF under construction: the pages in order; each page holds its
placed images in placement order. -/
abbrev PdfPages : Type := List (List PlacedImage)

/-- `pdf.AddPage()`: append a fresh empty page. -/
def pdfAddPage (pages : PdfPages) : PdfPages := pages ++ [[]]

/-- `pdf.Image(...)`: draw onto the current (last) page. -/
def pdfPutImage (pages : PdfPages) (im : PlacedImage) : PdfPages :=
  pages.dropLast ++ [pages.getLastD [] ++ [im]]

/-- The placement `convertImagePathsToPDF` computes for one image:
top-left corner, scaled by `min(pageWidth/width, pageHeight/height)`. -/
def placeImage (c : PdfImg) : PlacedImage :=
  let w : ℚ := c.width
  let h : ℚ := c.height
  let r : ℚ := min (a4PageWidth / w) (a4PageHeight / h)
  ⟨0, 0, w * r, h * r⟩

/-- The image loop of `convertImagePathsToPDF` from a given document
state: open the file, read its dimensions, add a page, place the image;
any step's failure aborts the export. -/
def convertImagePathsToPDFGo : List PdfImg → PdfPages → Except String PdfPages
  | [], pages => Except.ok pages
  | c :: rest, pages =>
    if ¬ c.openOk then Except.error "failed to open image file"
    else if ¬ c.cfgOk then Except.error "image: unknown format"
    else convertImagePathsToPDFGo rest (pdfPutImage (pdfAddPage pages) (placeImage c))

/-- Embeds `convertImagePathsToPDF`, starting from the empty document. -/
def convertImagePathsToPDF (imgs : List PdfImg) : Except String PdfPages :=
  convertImagePathsToPDFGo imgs []

theorem pdfPutImage_addPage (pages : PdfPages) (im : PlacedImage) :
    pdfPutImage (pdfAddPage pages) im = pages ++ [[im]] := by
  unfold pdfPutImage pdfAddPage
  rw [List.dropLast_concat, List.getLastD_concat]
  rfl

theorem convertImagePathsToPDFGo_all_ok (imgs : List PdfImg) :
    ∀ pages : PdfPages,
      (∀ c ∈ imgs, c.openOk = true ∧ c.cfgOk = true) →
      convertImagePathsToPDFGo imgs pages =
        Except.ok (pages ++ imgs.map (fun c => [placeImage c])) := by
  induction imgs with
  | nil => intro pages _; simp [convertImagePathsToPDFGo]
  | cons c rest ih =>
    intro pages hok
    obtain ⟨h1, h2⟩ := hok c (by simp)
    unfold convertImagePathsToPDFGo
    rw [if_neg (by simp [h1]), if_neg (by simp [h2]), pdfPutImage_addPage,
      ih (pages ++ [[placeImage c]]) (fun c' hc' => hok c' (by simp [hc']))]
    rw [List.append_assoc, List.singleton_append]
    rfl

/-! ## Claim C7 — one A4 page per image, fit-to-page placement -/

/-- C7: when every open/DecodeConfig step succeeds the PDF exporter
produces exactly one page per image, pages in input order, each page
holding a single image placed at the top-left corner `(0,0)` with size
`(width*r, height*r)` where `r = min(pageWidth/width, pageHeight/height)`
on the fixed A4 page in millimetre units; only the pixel dimensions of
each image are consumed. -/
theorem claim7_pdf_layout (imgs : List PdfImg)
    (hok : ∀ c ∈ imgs, c.openOk = true ∧ c.cfgOk = true) :
    ∃ pages : PdfPages, convertImagePathsToPDF imgs = Except.ok pages ∧
      pages.length = imgs.length ∧
      ∀ i, i < imgs.length →
        pages[i]? = (imgs[i]?).map (fun c =>
          [⟨0, 0,
            (c.width : ℚ) * min (a4PageWidth / c.width) (a4PageHeight / c.height),
            (c.height : ℚ) * min (a4PageWidth / c.width) (a4PageHeight / c.height)⟩]) := by
  refine ⟨imgs.map (fun c => [placeImage c]), ?_, by simp, ?_⟩
  · have := convertImagePathsToPDFGo_all_ok imgs [] hok
    simpa [convertImagePathsToPDF] using this
  · intro i _
    rw [List.getElem?_map]
    rfl

/-- Witness for C7 at a concrete input: a 1024×768 image on A4 is scaled
by `r = a4PageWidth/1024` (the width-constrained factor). -/
theorem claim7_witness :
    ∃ pages : PdfPages,
      convertImagePathsToPDF [⟨true, true, 1024, 768⟩] = Except.ok pages ∧
        pages[0]? = some
          [⟨0, 0, 1024 * (a4PageWidth / 1024), 768 * (a4PageWidth / 1024)⟩] := by
  obtain ⟨pages, hconv, hlen, hat⟩ :=
    claim7_pdf_layout [⟨true, true, 1024, 768⟩] (by decide)
  refine ⟨pages, hconv, ?_⟩
  rw [hat 0 (by decide)]
  have hmin : min (a4PageWidth / (1024 : ℚ)) (a4PageHeight / (768 : ℚ)) =
      a4PageWidth / 1024 := by
    unfold a4PageWidth a4PageHeight
    norm_num
  norm_num [hmin]

/-! ## Conversion pipelines, storage lifecycle view (`ConvertURLsToPDF`,
`ConvertURLsToZip`)

Both functions: fetch all images (the fetcher's own cleanup applies on its
failure), register a deferred `os.Remove` for every fetched path, create
the temporary export file, register its deferred `os.Remove`, build the
artifact, upload it over FTP, and stat it.  The deferred removals run on
every return path.  The middle stages are abstracted to success flags —
only file creation and deletion matter for this lifecycle view; the
entry-level behaviour of the exporters is verified separately above. -/

/-- Oracle for one `ConvertURLsToPDF` execution. -/
structure PdfPipe where
  fetch : List FetchOutcome
  createPdfOk : Bool
  pdfRand : String
  exportOk : Bool
  exportErrMsg : String
  uploadOk : Bool
  uploadErrMsg : String
  statOk : Bool
  fileSize : Int
  dateStr : String
deriving DecidableEq, Repr

/-- The name `os.CreateTemp("", "slides-*.pdf")` chooses. -/
def pdfTmpName (o : PdfPipe) : String :=
  "/tmp/slides-" ++ o.pdfRand ++ ".pdf"

/-- The part of `ConvertURLsToPDF` after a successful fetch, with the
deferred removal of `imagePaths` (and of the temp PDF, once created)
applied on every return path; `storage` is what the fetch left on disk. -/
def convertURLsToPDFAfterFetch (o : PdfPipe) (pdfFilename : String)
    (imagePaths storage : List String) :
    Except CustomAPIError (String × Int) × List String :=
  if imagePaths.isEmpty then
    (Except.error ⟨500, "No images to convert to PDF"⟩,
      removeFiles storage imagePaths)
  else if ¬ o.createPdfOk then
    (Except.error ⟨500, "failed to create temporary PDF file"⟩,
      removeFiles storage imagePaths)
  else
    let storage1 := storage ++ [pdfTmpName o]
    if ¬ o.exportOk then
      (Except.error ⟨500, o.exportErrMsg⟩,
        removeFiles (removeFile storage1 (pdfTmpName o)) imagePaths)
    else if ¬ o.uploadOk then
      (Except.error ⟨500, "FTP upload failed: " ++ o.uploadErrMsg⟩,
        removeFiles (removeFile storage1 (pdfTmpName o)) imagePaths)
    else if ¬ o.statOk then
      (Except.error ⟨500, "stat failed"⟩,
        removeFiles (removeFile storage1 (pdfTmpName o)) imagePaths)
    else
      (Except.ok ("SS_DL/" ++ o.dateStr ++ "/" ++ pdfFilename, o.fileSize),
        removeFiles (removeFile storage1 (pdfTmpName o)) imagePaths)

/-- Embeds `ConvertURLsToPDF`: result plus the temporary files still on
local storage when it returns (deferred removals applied; removal order is
immaterial here). -/
def convertURLsToPDFRun (o : PdfPipe) (pdfFilename : String) :
    Except CustomAPIError (String × Int) × List String :=
  match fetchImagesConcurrently o.fetch with
  | Except.error e => (Except.error e, fetchRemaining o.fetch)
  | Except.ok imagePaths =>
    convertURLsToPDFAfterFetch o pdfFilename imagePaths (fetchRemaining o.fetch)

/-- Oracle for one `ConvertURLsToZip` execution (the zip build and the
`zipWriter.Close` are the build/close flags). -/
structure ZipPipe where
  fetch : List FetchOutcome
  createZipOk : Bool
  zipRand : String
  buildOk : Bool
  buildErrMsg : String
  closeOk : Bool
  uploadOk : Bool
  uploadErrMsg : String
  statOk : Bool
  fileSize : Int
  dateStr : String
deriving DecidableEq, Repr

/-- The name `os.CreateTemp("", "slides-*.zip")` chooses. -/
def zipTmpName (o : ZipPipe) : String :=
  "/tmp/slides-" ++ o.zipRand ++ ".zip"

/-- The part of `ConvertURLsToZip` after a successful fetch, with the
deferred removals applied on every return path. -/
def convertURLsToZipAfterFetch (o : ZipPipe) (zipFilename : String)
    (imagePaths storage : List String) :
    Except CustomAPIError (String × Int) × List String :=
  if ¬ o.createZipOk then
    (Except.error ⟨500, "failed to create temporary ZIP file"⟩,
      removeFiles storage imagePaths)
  else
    let storage1 := storage ++ [zipTmpName o]
    if ¬ o.buildOk then
      (Except.error ⟨500, o.buildErrMsg⟩,
        removeFiles (removeFile storage1 (zipTmpName o)) imagePaths)
    else if ¬ o.closeOk then
      (Except.error ⟨500, "Failed to close zip"⟩,
        removeFiles (removeFile storage1 (zipTmpName o)) imagePaths)
    else if ¬ o.uploadOk then
      (Except.error ⟨500, "FTP upload failed: " ++ o.uploadErrMsg⟩,
        removeFiles (removeFile storage1 (zipTmpName o)) imagePaths)
    else if ¬ o.statOk then
      (Except.error ⟨500, "stat failed"⟩,
        removeFiles (removeFile storage1 (zipTmpName o)) imagePaths)
    else
      (Except.ok ("SS_DL/" ++ o.dateStr ++ "/" ++ zipFilename, o.fileSize),
        removeFiles (removeFile storage1 (zipTmpName o)) imagePaths)

/-- Embeds `ConvertURLsToZip`: result plus the temporary files still on
local storage when it returns. -/
def convertURLsToZipRun (o : ZipPipe) (zipFilename : String) :
    Except CustomAPIError (String × Int) × List String :=
  match fetchImagesConcurrently o.fetch with
  | Except.error e => (Except.error e, fetchRemaining o.fetch)
  | Except.ok imagePaths =>
    convertURLsToZipAfterFetch o zipFilename imagePaths (fetchRemaining o.fetch)

theorem removeFiles_self_nil (ps : List String) : removeFiles ps ps = [] :=
  removeFiles_eq_nil ps ps (fun _ hx => hx)

theorem removeFiles_concat_removed (ps : List String) (f : String) :
    removeFiles (removeFile (ps ++ [f]) f) ps = [] := by
  apply removeFiles_eq_nil
  intro x hx
  unfold removeFile at hx
  obtain ⟨hmem, hne⟩ := List.mem_filter.1 hx
  rcases List.mem_append.1 hmem with h | h
  · exact h
  · simp only [List.mem_singleton] at h
    subst h
    simp at hne

/-! ## Claim C8 — unconditional cleanup of local artifacts -/

/-- C8: in every execution of the PDF or ZIP conversion that reaches the
export stage (the fetch returned successfully), no temporary file — the
fetched images or the export output file — remains on local storage when
the conversion function returns, whichever later stage fails (export
failure, FTP upload failure, stat failure) and also on full success. -/
theorem claim8_cleanup (p : PdfPipe) (z : ZipPipe) (fn1 fn2 : String)
    (hp : ∃ ps, fetchImagesConcurrently p.fetch = Except.ok ps)
    (hz : ∃ ps, fetchImagesConcurrently z.fetch = Except.ok ps) :
    (convertURLsToPDFRun p fn1).2 = [] ∧ (convertURLsToZipRun z fn2).2 = [] := by
  constructor
  · obtain ⟨ps, hok⟩ := hp
    have hrem := fetchRemaining_of_ok p.fetch ps hok
    have hred : convertURLsToPDFRun p fn1 =
        convertURLsToPDFAfterFetch p fn1 ps ps := by
      unfold convertURLsToPDFRun
      rw [hok, hrem]
    rw [hred]
    unfold convertURLsToPDFAfterFetch
    by_cases h1 : ps.isEmpty
    · rw [if_pos h1]
      exact removeFiles_self_nil ps
    · rw [if_neg h1]
      by_cases h2 : p.createPdfOk
      · rw [if_neg (by simp [h2])]
        by_cases h3 : p.exportOk
        · rw [if_neg (by simp [h3])]
          by_cases h4 : p.uploadOk
          · rw [if_neg (by simp [h4])]
            by_cases h5 : p.statOk
            · rw [if_neg (by simp [h5])]
              exact removeFiles_concat_removed ps (pdfTmpName p)
            · rw [if_pos (by simp [h5])]
              exact removeFiles_concat_removed ps (pdfTmpName p)
          · rw [if_pos (by simp [h4])]
            exact removeFiles_concat_removed ps (pdfTmpName p)
        · rw [if_pos (by simp [h3])]
          exact removeFiles_concat_removed ps (pdfTmpName p)
      · rw [if_pos (by simp [h2])]
        exact removeFiles_self_nil ps
  · obtain ⟨ps, hok⟩ := hz
    have hrem := fetchRemaining_of_ok z.fetch ps hok
    have hred : convertURLsToZipRun z fn2 =
        convertURLsToZipAfterFetch z fn2 ps ps := by
      unfold convertURLsToZipRun
      rw [hok, hrem]
    rw [hred]
    unfold convertURLsToZipAfterFetch
    by_cases h2 : z.createZipOk
    · rw [if_neg (by simp [h2])]
      by_cases h3 : z.buildOk
      · rw [if_neg (by simp [h3])]
        by_cases h3' : z.closeOk
        · rw [if_neg (by simp [h3'])]
          by_cases h4 : z.uploadOk
          · rw [if_neg (by simp [h4])]
            by_cases h5 : z.statOk
            · rw [if_neg (by simp [h5])]
              exact removeFiles_concat_removed ps (zipTmpName z)
            · rw [if_pos (by simp [h5])]
              exact removeFiles_concat_removed ps (zipTmpName z)
          · rw [if_pos (by simp [h4])]
            exact removeFiles_concat_removed ps (zipTmpName z)
        · rw [if_pos (by simp [h3'])]
          exact removeFiles_concat_removed ps (zipTmpName z)
      · rw [if_pos (by simp [h3])]
        exact removeFiles_concat_removed ps (zipTmpName z)
    · rw [if_pos (by simp [h2])]
      exact removeFiles_self_nil ps

/-- Witness for C8 at concrete inputs: a PDF pipeline whose FTP upload
fails (after the export file was written) and a ZIP pipeline whose export
build fails both leave zero temporary files. -/
theorem claim8_witness :
    (convertURLsToPDFRun
        ⟨[c1okTask], true, "p", true, "", false, "connection refused",
          true, 0, "01012026"⟩ "doc.pdf").2 = [] ∧
      (convertURLsToZipRun
        ⟨[c1okTask], true, "z", false, "disk full", true, true, "",
          true, 0, "01012026"⟩ "doc.zip").2 = [] := by
  exact claim8_cleanup
    ⟨[c1okTask], true, "p", true, "", false, "connection refused",
      true, 0, "01012026"⟩
    ⟨[c1okTask], true, "z", false, "disk full", true, true, "",
      true, 0, "01012026"⟩
    "doc.pdf" "doc.zip" ⟨_, rfl⟩ ⟨_, rfl⟩

end SSDL
